import Mathlib

/-!
Commitment manager (`commitmgr.go`): shallow embedding

The Go code of `venus-sector-manager/modules/impl/commitmgr/commitmgr.go`
is translated function by function.

Conventions of the embedding

* A Go call returning `(value, error)` is an `Except String value`.
* A Go call that can panic (`MustMinerConfig`) is wrapped in `Option`:
  `none` is the panic.
* Collaborators that live outside the file (config, sector store, chain
  reader, messager, address and cid libraries, the pre-commit checker) are
  fields of the record `Env`: total functions standing for what the
  collaborator answers.
* The two pending channels are lists to which a send appends.
* `State.updateLog` is a ghost field: every call of `smgr.Update` appends the
  sector id it was called with, so that "no store update" can be stated.
-/

set_option linter.dupNamespace false

deriving instance DecidableEq for Except

namespace Commitmgr

/-! ## Data model -/

/-- The Go type `abi.ActorID` (a `uint64`). -/
abbrev ActorID := Nat

/-- The Go type `abi.SectorNumber` (a `uint64`). -/
abbrev SectorNumber := Nat

/-- The Go type `abi.SectorID`. -/
structure SectorID where
  Miner : ActorID
  Number : SectorNumber
  deriving DecidableEq, Repr

/-- The Go type `cid.Cid`; `str` is what the method `String()` returns. -/
structure Cid where
  str : String
  deriving DecidableEq, Repr

/-- The Go type `address.Address`; `str` is its textual form. -/
structure Address where
  str : String
  deriving DecidableEq, Repr

/-- The Go value `address.Undef`. -/
def Address.Undef : Address := ⟨""⟩

/-- The sealing ticket of a pre-commit: `Ticket` is a byte slice (compared in
the source with `bytes.Equal`), `Epoch` a chain epoch (`int64`). -/
structure Ticket where
  Ticket : List Nat
  Epoch : Int
  deriving DecidableEq, Repr

/-- Modelled from the spec: the declaration of `core.PreCommitInfo` is not
part of the sources. The data model lists the fields
`CommR, CommD, Ticket(Epoch, Bytes), Deals[], SealProofType, Expiration`. -/
structure PreCommitInfo where
  CommR : List Nat
  CommD : List Nat
  Ticket : Ticket
  Deals : List Nat
  SealProofType : Int
  Expiration : Int
  deriving DecidableEq, Repr

/-- Modelled from the spec: `core.ProofInfo`, given as
`Proof bytes, Seed(Epoch, Bytes)`. -/
structure ProofInfo where
  Proof : List Nat
  SeedEpoch : Int
  SeedBytes : List Nat
  deriving DecidableEq, Repr

/-- The field `MessageInfo` of a sector state, as the source uses it. -/
structure MessageInfo where
  PreCommitCid : Option Cid
  CommitCid : Option Cid
  NeedSend : Bool
  deriving DecidableEq, Repr

/-- The part of `core.SectorState` the source reads and writes. -/
structure SectorState where
  ID : SectorID
  Pre : Option PreCommitInfo
  Proof : Option ProofInfo
  MessageInfo : MessageInfo
  deriving DecidableEq, Repr

/-- The Go enum `core.OnChainState`. -/
inductive OnChainState where
  | Pending
  | Packed
  | Landed
  | Failed
  | ShouldAbort
  deriving DecidableEq, Repr

/-- The Go enum `core.SubmitResult`; `Unknown` is its zero value. -/
inductive SubmitResult where
  | Unknown
  | Accepted
  | MismatchedSubmission
  | Rejected
  deriving DecidableEq, Repr

/-- The Go type `core.SubmitPreCommitResp`. -/
structure SubmitPreCommitResp where
  Res : SubmitResult
  Desc : Option String
  deriving DecidableEq, Repr

/-- The Go type `core.PollPreCommitStateResp`. -/
structure PollPreCommitStateResp where
  State : OnChainState
  Desc : Option String
  deriving DecidableEq, Repr

/-- The messager's message state. The source distinguishes `OnChainMsg` and
`FailedMsg`; every other value falls into the `default` branch. -/
inductive MessageState where
  | OnChainMsg
  | FailedMsg
  | other (code : Nat)
  deriving DecidableEq, Repr

/-- A message receipt: `ExitCode` is an `int64`, `Return` the returned bytes,
kept as the string that `string(msg.Receipt.Return)` yields. -/
structure Receipt where
  ExitCode : Int
  Return : String
  deriving DecidableEq, Repr

/-- The Go constant `exitcode.Ok`. -/
def exitcodeOk : Int := 0

/-- The part of `messager.Message` that `handleMessage` reads. -/
structure Message where
  ID : String
  State : MessageState
  Confidence : Int
  Receipt : Option Receipt
  SignedCid : Option Cid
  deriving DecidableEq, Repr

/-- The chain message built by `pushMessage` (`types.Message`). -/
structure ChainMessage where
  To : Address
  From : Address
  Value : Nat
  Method : Nat
  Params : List Nat
  deriving DecidableEq, Repr

/-- A sender address from the configuration (`MustAddress`): `Valid()` holds
when it is not `address.Undef`, `Std()` is the address itself. -/
structure MustAddress where
  addr : Address
  deriving DecidableEq, Repr

/-- The method `MustAddress.Valid`. -/
def MustAddress.Valid (a : MustAddress) : Bool := a.addr != Address.Undef

/-- The method `MustAddress.Std`. -/
def MustAddress.Std (a : MustAddress) : Address := a.addr

/-- The part of a miner's configuration the source reads:
`Commitment.Pre.Sender`, `Commitment.Prove.Sender`, `Commitment.Confidence`. -/
structure MinerConfig where
  PreSender : MustAddress
  ProveSender : MustAddress
  Confidence : Int
  deriving DecidableEq, Repr

/-- The error classes of `checkPrecommit` that `SubmitPreCommit` tells apart
in its type switch: `*ErrAPI`, `*ErrPrecommitOnChain`, and every other
error (the `default` branch). Each carries the text of `err.Error()`. -/
inductive PrecommitErr where
  | ErrAPI (msg : String)
  | ErrPrecommitOnChain (msg : String)
  | other (msg : String)
  deriving DecidableEq, Repr

/-- The text of a pre-commit check error (`err.Error()`). -/
def PrecommitErr.Error : PrecommitErr → String
  | .ErrAPI m => m
  | .ErrPrecommitOnChain m => m
  | .other m => m

/-- What `StateSectorPreCommitInfo` can hand back as its error. -/
inductive ChainErr where
  | ErrSectorAllocated
  | other (msg : String)
  deriving DecidableEq, Repr

/-- The text of a chain error. -/
def ChainErr.Error : ChainErr → String
  | .ErrSectorAllocated => "sector allocated"
  | .other m => m

/-- The collaborators of the commitment manager, as the answers they give.
None of them is defined in the file under study. -/
structure Env where
  /-- The call `cfg.MinerConfig(mid)`. -/
  MinerConfig : ActorID → Except String MinerConfig
  /-- The call `address.NewIDAddress(uint64(mid))`. -/
  NewIDAddress : ActorID → Except String Address
  /-- The call `checkPrecommit(ctx, maddr, sector, stateMgr)`; `none` is a nil error. -/
  checkPrecommit : Address → SectorState → Option PrecommitErr
  /-- The call `stateMgr.StateSectorPreCommitInfo(ctx, maddr, number, nil)`:
  the record (or nil) and the error (or nil), as a Go pair. -/
  StateSectorPreCommitInfo : Address → SectorNumber → Option PreCommitInfo × Option ChainErr
  /-- The call `msgClient.GetMessageByUid(ctx, uid)`. -/
  GetMessageByUid : String → Except String Message
  /-- The call `msgClient.HasMessageByUid(ctx, uid)`. -/
  HasMessageByUid : String → Except String Bool
  /-- The call `msgClient.PushMessageWithId(ctx, uid, msg, spec)`. -/
  PushMessageWithId : String → ChainMessage → Except String String
  /-- The call `msg.ToStorageBlock()` followed by `RawData()`. -/
  ToStorageBlock : ChainMessage → Except String (List Nat)
  /-- The call `pref.Sum(seed)` with the fixed prefix of `NewMIdFromBytes`. -/
  prefSum : List Nat → Except String Cid
  /-- A transient failure of `smgr.Load` for a sector id (`none`: no failure). -/
  loadErr : SectorID → Option String
  /-- A transient failure of `smgr.Update` for a sector id. -/
  updateErr : SectorID → Option String
  /-- The call `smgr.All(ctx, WorkerOnline, SectorWorkerJobSealing)`. -/
  All : Except String (List SectorState)

/-- The mutable world of the manager: the sector store, the two pending
channels, and the ghost log of `smgr.Update` calls. -/
structure State where
  store : List SectorState
  prePendingChan : List SectorState
  proPendingChan : List SectorState
  updateLog : List SectorID
  deriving DecidableEq, Repr

/-! ## Constants -/

def errMsgPublishAttemptFailed : String := "attempt to publish message but failed"
def errMsgReceiptNotFound : String := "receipt not found for on-chain message"
def errMsgSectorAllocated : String := "sector already allocated"
def errMsgPreCommitInfoNotFound : String := "pre-commit info not found on chain"
def errMsgSectorInfoNotFound : String := "sector info not found on chain"

/-! ## `handleMessage` -/

/-- The call `c.cfg.MustMinerConfig(mid)`: the configuration, or a panic
(`none`) when the lookup fails. -/
def MustMinerConfig (env : Env) (mid : ActorID) : Option MinerConfig :=
  match env.MinerConfig mid with
  | .ok mcfg => some mcfg
  | .error _ => none

/-- The description computed at the head of `handleMessage`: the receipt's
return bytes as a string, when a receipt is present and they are not empty. -/
def maybeMsg (msg : Message) : Option String :=
  match msg.Receipt with
  | some r => if r.Return.length > 0 then some r.Return else none
  | none => none

/-- The method `CommitmentMgrImpl.handleMessage`. `none` is the panic of
`MustMinerConfig`, which only the `OnChainMsg` branch can raise. -/
def handleMessage (env : Env) (mid : ActorID) (msg : Message) :
    Option (OnChainState × Option String) :=
  match msg.State with
  | .OnChainMsg =>
    match MustMinerConfig env mid with
    | none => none
    | some mcfg =>
      let confidence := mcfg.Confidence
      if msg.Confidence < confidence then
        some (OnChainState.Packed, maybeMsg msg)
      else
        match msg.Receipt with
        | none => some (OnChainState.Failed, some errMsgReceiptNotFound)
        | some r =>
          if r.ExitCode ≠ exitcodeOk then
            some (OnChainState.ShouldAbort, maybeMsg msg)
          else
            some (OnChainState.Landed, maybeMsg msg)
  | .FailedMsg => some (OnChainState.Failed, maybeMsg msg)
  | .other _ => some (OnChainState.Pending, maybeMsg msg)

/-! ## The sector store -/

/-- Modelled from the spec: the sector state store is an external
collaborator, "a persistent mapping of sector id to state" with
`Load(id) → state`. The first record stored under the id is returned; a
transient failure or a missing record is an error. -/
def smgrLoad (env : Env) (st : State) (id : SectorID) : Except String SectorState :=
  match env.loadErr id with
  | some e => .error e
  | none =>
    match st.store.find? (fun s => decide (s.ID = id)) with
    | some s => .ok s
    | none => .error "sector not found"

/-- Modelled from the spec: the store operation `Update(id, fields…)`,
"partial updates atomic per sector", called by `SubmitPreCommit` with the
fields `Pre` and `MessageInfo`. Every call is recorded in the ghost log;
on success the two fields of the record stored under `id` are replaced.
The first component is the Go error (`none` is nil). -/
def smgrUpdate (env : Env) (st : State) (id : SectorID) (pre : Option PreCommitInfo)
    (mi : MessageInfo) : Option String × State :=
  let st1 := { st with updateLog := st.updateLog ++ [id] }
  match env.updateErr id with
  | some e => (some e, st1)
  | none =>
    if st.store.any (fun s => decide (s.ID = id)) then
      (none, { st1 with store := st.store.map (fun s =>
          if s.ID = id then { s with Pre := pre, MessageInfo := mi } else s) })
    else
      (some "sector not found", st1)

/-! ## Senders -/

/-- The method `CommitmentMgrImpl.preSender`. -/
def preSender (env : Env) (mid : ActorID) : Except String Address :=
  match env.MinerConfig mid with
  | .error e => .error ("get miner config for " ++ toString mid ++ ": " ++ e)
  | .ok mcfg =>
    if !mcfg.PreSender.Valid then
      .error "sender address not valid"
    else
      .ok mcfg.PreSender.Std

/-! ## `SubmitPreCommit` -/

/-- Lines 342 to 372 of `SubmitPreCommit`: the path taken when the sector has
no stored `Pre` or the caller asks for a hard reset. The asynchronous send
onto `prePendingChan` is an append to the channel. -/
def submitChecked (env : Env) (st : State) (sector : SectorState) (maddr : Address)
    (info : PreCommitInfo) : Except String SubmitPreCommitResp × State :=
  let sector1 := { sector with Pre := some info }
  match env.checkPrecommit maddr sector1 with
  | some (.ErrAPI e) => (.error e, st)
  | some (.ErrPrecommitOnChain _) => (.ok ⟨.Accepted, none⟩, st)
  | some (.other errMsg) => (.ok ⟨.Rejected, some errMsg⟩, st)
  | none =>
    let sector2 := { sector1 with
      MessageInfo := { sector1.MessageInfo with NeedSend := true, PreCommitCid := none } }
    match smgrUpdate env st sector2.ID sector2.Pre sector2.MessageInfo with
    | (some e, st1) => (.error e, st1)
    | (none, st1) =>
      (.ok ⟨.Accepted, none⟩, { st1 with prePendingChan := st1.prePendingChan ++ [sector2] })

/-- The test `preInfoChanged` of `SubmitPreCommit` (lines 331 to 333). -/
def preInfoChanged (pre info : PreCommitInfo) : Bool :=
  (pre.CommD != info.CommD) ||
  (pre.CommR != info.CommR) ||
  (pre.Ticket.Epoch != info.Ticket.Epoch || !(pre.Ticket.Ticket == info.Ticket.Ticket))

/-- The method `CommitmentMgrImpl.SubmitPreCommit`: the Go result pair and
the world after the call. -/
def SubmitPreCommit (env : Env) (st : State) (id : SectorID) (info : PreCommitInfo)
    (hardReset : Bool) : Except String SubmitPreCommitResp × State :=
  match preSender env id.Miner with
  | .error e => (.error e, st)
  | .ok _ =>
    match smgrLoad env st id with
    | .error e => (.error e, st)
    | .ok sector =>
      match env.NewIDAddress id.Miner with
      | .error errMsg => (.ok ⟨.Rejected, some errMsg⟩, st)
      | .ok maddr =>
        match sector.Pre, hardReset with
        | some pre, false =>
          if preInfoChanged pre info then
            (.ok ⟨.MismatchedSubmission, none⟩, st)
          else
            (.ok ⟨.Accepted, none⟩, st)
        | _, _ => submitChecked env st sector maddr info

/-! ## `PreCommitState` -/

/-- Lines 403 to 418 of `PreCommitState`: the chain-side confirmation made
when `handleMessage` answered `Landed`. -/
def confirmOnChain (env : Env) (maddr : Address) (id : SectorID) (state : OnChainState)
    (maybe : Option String) : Except String PollPreCommitStateResp :=
  if state = OnChainState.Landed then
    match env.StateSectorPreCommitInfo maddr id.Number with
    | (pci, err) =>
      if err = some ChainErr.ErrSectorAllocated then
        .ok ⟨.ShouldAbort, some errMsgSectorAllocated⟩
      else
        match err with
        | some e => .error e.Error
        | none =>
          match pci with
          | none => .ok ⟨.ShouldAbort, some errMsgPreCommitInfoNotFound⟩
          | some _ => .ok ⟨state, maybe⟩
  else
    .ok ⟨state, maybe⟩

/-- The method `CommitmentMgrImpl.PreCommitState`. The outer `none` is the
panic that `handleMessage` can raise. -/
def PreCommitState (env : Env) (st : State) (id : SectorID) :
    Option (Except String PollPreCommitStateResp) :=
  match env.NewIDAddress id.Miner with
  | .error e => some (.error e)
  | .ok maddr =>
    match smgrLoad env st id with
    | .error e => some (.error e)
    | .ok sector =>
      match sector.MessageInfo.PreCommitCid with
      | none =>
        if sector.MessageInfo.NeedSend then
          some (.ok ⟨.Pending, none⟩)
        else
          some (.ok ⟨.Failed, some errMsgPublishAttemptFailed⟩)
      | some c =>
        match env.GetMessageByUid c.str with
        | .error e => some (.error e)
        | .ok msg =>
          match handleMessage env id.Miner msg with
          | none => none
          | some (state, maybe) => some (confirmOnChain env maddr id state maybe)

/-! ## `pushMessage` -/

/-- The function `NewMIdFromBytes`: the v1 raw-codec cid of the seed under
the fixed multihash prefix. -/
def NewMIdFromBytes (env : Env) (seed : List Nat) : Except String Cid :=
  match env.prefSum seed with
  | .error e => .error e
  | .ok c => .ok c

/-- The probing loop of `pushMessage` (lines 127 to 145), started at counter
`i`. The Go loop has no bound, so the model takes fuel: `none` means the
fuel ran out. `byte(i)` keeps the low eight bits of the counter, `i % 256`. -/
def probeLoop (env : Env) (mb : List Nat) : Nat → Nat → Option (Except String Cid)
  | 0, _ => none
  | fuel + 1, i =>
    let r := [i % 256] ++ mb
    match NewMIdFromBytes env r with
    | .error e => some (.error e)
    | .ok mid =>
      match env.HasMessageByUid mid.str with
      | .error e => some (.error e)
      | .ok has =>
        if !has then some (.ok mid) else probeLoop env mb fuel (i + 1)

/-- The function `pushMessage`. The result pairs the Go result with the
ghost list of ids handed to `PushMessageWithId`; the outer `none` means the
probing loop ran out of fuel. The fee spec is passed through to the
messager untouched and is left out. -/
def pushMessage (env : Env) (fuel : Nat) (sender : Address) (mid : ActorID) (value : Nat)
    (method : Nat) (params : List Nat) : Option (Except String Cid × List String) :=
  match env.NewIDAddress mid with
  | .error e => some (.error e, [])
  | .ok toAddr =>
    let msg : ChainMessage := ⟨toAddr, sender, value, method, params⟩
    match env.ToStorageBlock msg with
    | .error e => some (.error e, [])
    | .ok mb =>
      match probeLoop env mb fuel 0 with
      | none => none
      | some (.error e) => some (.error e, [])
      | some (.ok mcid) =>
        match env.PushMessageWithId mcid.str msg with
        | .error e => some (.error ("push message with id failed: " ++ e), [mcid.str])
        | .ok uid =>
          if uid ≠ mcid.str then
            some (.error "mcid not equal to uid, its out of control", [mcid.str])
          else
            some (.ok mcid, [mcid.str])

/-! ## `restartSector` -/

/-- The body of the loop of `restartSector` for one sector. -/
def restartStep (st : State) (s : SectorState) : State :=
  if s.MessageInfo.NeedSend then
    if s.MessageInfo.PreCommitCid = none then
      { st with prePendingChan := st.prePendingChan ++ [s] }
    else
      { st with proPendingChan := st.proPendingChan ++ [s] }
  else
    st

/-- The method `CommitmentMgrImpl.restartSector`. -/
def restartSector (env : Env) (st : State) : State :=
  match env.All with
  | .error _ => st
  | .ok sectors => sectors.foldl restartStep st

/-! ## Concrete worlds used to evaluate the definitions -/

/-- A miner configuration with a valid pre-commit sender and confidence 10. -/
def demoConfig : MinerConfig := ⟨⟨⟨"f01"⟩⟩, ⟨⟨"f02"⟩⟩, 10⟩

/-- A pre-commit record on chain. -/
def demoInfo : PreCommitInfo := ⟨[2], [1], ⟨[116], 100⟩, [], 8, 2000⟩

/-- An environment in which every collaborator answers without error:
miner 1000 is configured, nothing has been seen by the messager, the chain
holds the pre-commit record, and the checker accepts. -/
def demoEnv : Env where
  MinerConfig := fun _ => .ok demoConfig
  NewIDAddress := fun mid => .ok ⟨"f0" ++ toString mid⟩
  checkPrecommit := fun _ _ => none
  StateSectorPreCommitInfo := fun _ _ => (some demoInfo, none)
  GetMessageByUid := fun uid => .ok ⟨uid, .OnChainMsg, 11, some ⟨0, ""⟩, none⟩
  HasMessageByUid := fun _ => .ok false
  PushMessageWithId := fun uid _ => .ok uid
  ToStorageBlock := fun m => .ok m.Params
  prefSum := fun seed => .ok ⟨toString seed⟩
  loadErr := fun _ => none
  updateErr := fun _ => none
  All := .ok []

/-- An on-chain message without receipt whose confidence 3 is below the
configured 10. -/
def msgNoReceiptEarly : Message := ⟨"m1", .OnChainMsg, 3, none, none⟩

/-- An on-chain message without receipt whose confidence 11 has passed the
configured 10. -/
def msgNoReceiptLate : Message := ⟨"m1", .OnChainMsg, 11, none, none⟩

/-- An on-chain message with a failing receipt (exit code 16) and confidence 3. -/
def msgBadExitEarly : Message := ⟨"m2", .OnChainMsg, 3, some ⟨16, "boom"⟩, none⟩

/-- An on-chain message with a failing receipt (exit code 16) and confidence 11. -/
def msgBadExitLate : Message := ⟨"m2", .OnChainMsg, 11, some ⟨16, "boom"⟩, none⟩

/-- An on-chain message with an OK receipt and confidence 11. -/
def msgLanded : Message := ⟨"m3", .OnChainMsg, 11, some ⟨0, ""⟩, none⟩

/-- A sector of miner 1000 with a stored pre-commit, already dispatched. -/
def sectorStored : SectorState :=
  ⟨⟨1000, 42⟩, some demoInfo, none, ⟨some ⟨"bafk42"⟩, none, false⟩⟩

/-- A sector of miner 1000 that has never been submitted. -/
def sectorFresh : SectorState :=
  ⟨⟨1000, 42⟩, none, none, ⟨none, none, false⟩⟩

/-- A world whose store holds the dispatched sector. -/
def stStored : State := ⟨[sectorStored], [], [], []⟩

/-- A world whose store holds the sector that was never submitted. -/
def stFresh : State := ⟨[sectorFresh], [], [], []⟩

/-- The stored record with other deals: it differs from `demoInfo` in the
field `Deals` only. -/
def demoInfoOtherDeals : PreCommitInfo := { demoInfo with Deals := [7] }

/-- The stored record with another `CommR`. -/
def demoInfoOtherCommR : PreCommitInfo := { demoInfo with CommR := [3] }

/-- The demo world with a checker that finds the pre-commit on chain. -/
def onChainEnv : Env :=
  { demoEnv with checkPrecommit := fun _ _ => some (.ErrPrecommitOnChain "precommit already on chain") }

/-- The demo world without any miner configuration. -/
def noConfigEnv : Env :=
  { demoEnv with MinerConfig := fun _ => .error "not found" }

/-- The world after the first accepted submission of `demoInfo` for the
fresh sector: the record is stored with `NeedSend` set, the sector is on the
pre-pending channel, and one store update has been made. -/
def stSubmitted : State :=
  ⟨[⟨⟨1000, 42⟩, some demoInfo, none, ⟨none, none, true⟩⟩],
    [⟨⟨1000, 42⟩, some demoInfo, none, ⟨none, none, true⟩⟩], [], [⟨1000, 42⟩]⟩

/-- The demo world whose chain reports the sector number as allocated. -/
def allocatedEnv : Env :=
  { demoEnv with StateSectorPreCommitInfo := fun _ _ => (none, some .ErrSectorAllocated) }

/-- The demo world whose chain has no pre-commit record. -/
def noRecordEnv : Env :=
  { demoEnv with StateSectorPreCommitInfo := fun _ _ => (none, none) }

/-- The id of the demo sector: miner 1000, sector number 42. -/
def sectorId42 : SectorID := ⟨1000, 42⟩

/-- The demo world with a messager that has seen the ids minted with the
salts 0 and 1 for the message bytes `[9]`. -/
def seenEnv : Env :=
  { demoEnv with HasMessageByUid := fun uid => .ok (uid == "[0, 9]" || uid == "[1, 9]") }

/-- The id minted in the demo world for a salt and the message bytes `[9]`. -/
def demoMId (salt : Nat) : Cid := ⟨toString ([salt] ++ [9])⟩

/-- The predicate "seen" of the messager of `seenEnv`. -/
def demoSeen (uid : String) : Bool := uid == "[0, 9]" || uid == "[1, 9]"

/-- Three sectors as the store lists them: one waiting for its pre-commit to
be sent, one that needs nothing, one waiting for its prove-commit. -/
def restartSectors : List SectorState :=
  [⟨⟨1000, 1⟩, some demoInfo, none, ⟨none, none, true⟩⟩,
   ⟨⟨1000, 2⟩, some demoInfo, none, ⟨some ⟨"bafk2"⟩, none, false⟩⟩,
   ⟨⟨1000, 3⟩, some demoInfo, some ⟨[5], 200, [6]⟩, ⟨some ⟨"bafk3"⟩, none, true⟩⟩]

/-- The demo world whose store lists `restartSectors`. -/
def restartEnv : Env := { demoEnv with All := .ok restartSectors }

/-! ## Theorems -/

/-! ### `handleMessage` -/

/-- C1: with the miner's configuration resolved, `handleMessage` returns the
state `Landed` exactly when the message state is `OnChainMsg`, a receipt is
present with `ExitCode = Ok`, and the message's confidence is at least the
miner's configured confidence. -/
theorem handleMessage_landed_iff (env : Env) (mid : ActorID) (msg : Message)
    (mcfg : MinerConfig) (hcfg : env.MinerConfig mid = .ok mcfg) :
    (∃ d, handleMessage env mid msg = some (OnChainState.Landed, d)) ↔
      (msg.State = MessageState.OnChainMsg ∧
        (∃ r, msg.Receipt = some r ∧ r.ExitCode = exitcodeOk) ∧
        mcfg.Confidence ≤ msg.Confidence) := by
  obtain ⟨mid0, state, conf, receipt, signed⟩ := msg
  cases state with
  | FailedMsg => simp [handleMessage]
  | other code => simp [handleMessage]
  | OnChainMsg =>
    by_cases hlt : conf < mcfg.Confidence
    · have hnle : ¬ mcfg.Confidence ≤ conf := not_le.mpr hlt
      simp [handleMessage, MustMinerConfig, hcfg, hlt, hnle]
    · have hle : mcfg.Confidence ≤ conf := not_lt.mp hlt
      cases receipt with
      | none => simp [handleMessage, MustMinerConfig, hcfg, hlt]
      | some r =>
        by_cases hex : r.ExitCode = exitcodeOk
        · simp [handleMessage, MustMinerConfig, hcfg, hlt, hle, hex]
        · simp [handleMessage, MustMinerConfig, hcfg, hlt, hex]

/-- C1, at a concrete message: the landed message of the demo world. -/
theorem handleMessage_landed_iff_witness :
    demoEnv.MinerConfig 1000 = .ok demoConfig ∧
    ((∃ d, handleMessage demoEnv 1000 msgLanded = some (OnChainState.Landed, d)) ↔
      (msgLanded.State = MessageState.OnChainMsg ∧
        (∃ r, msgLanded.Receipt = some r ∧ r.ExitCode = exitcodeOk) ∧
        demoConfig.Confidence ≤ msgLanded.Confidence)) :=
  ⟨rfl, handleMessage_landed_iff demoEnv 1000 msgLanded demoConfig rfl⟩

/-- C5, as the code has it: for an `OnChainMsg` message without receipt,
`handleMessage` first compares confidences; below the miner's threshold the
result is `Packed` (no description), and only from the threshold on it is
`Failed` with the receipt-not-found description. -/
theorem handleMessage_receipt_absent (env : Env) (mid : ActorID) (msg : Message)
    (mcfg : MinerConfig) (hcfg : env.MinerConfig mid = .ok mcfg)
    (hstate : msg.State = MessageState.OnChainMsg) (hrec : msg.Receipt = none) :
    handleMessage env mid msg =
      if msg.Confidence < mcfg.Confidence then some (OnChainState.Packed, none)
      else some (OnChainState.Failed, some errMsgReceiptNotFound) := by
  obtain ⟨mid0, state, conf, receipt, signed⟩ := msg
  simp only at hstate hrec
  subst hstate hrec
  by_cases hlt : conf < mcfg.Confidence <;>
    simp [handleMessage, MustMinerConfig, hcfg, hlt, maybeMsg]

/-- C5, amended, at a concrete message with confidence 11 against 10. -/
theorem handleMessage_receipt_absent_witness :
    demoEnv.MinerConfig 1000 = .ok demoConfig ∧
    msgNoReceiptLate.State = MessageState.OnChainMsg ∧
    msgNoReceiptLate.Receipt = none ∧
    handleMessage demoEnv 1000 msgNoReceiptLate =
      (if msgNoReceiptLate.Confidence < demoConfig.Confidence
        then some (OnChainState.Packed, none)
        else some (OnChainState.Failed, some errMsgReceiptNotFound)) :=
  ⟨rfl, rfl, rfl, handleMessage_receipt_absent demoEnv 1000 msgNoReceiptLate demoConfig rfl rfl rfl⟩

/-- C5 as stated fails: an `OnChainMsg` message without receipt and with
confidence 3 against a threshold of 10 is answered `Packed`, not `Failed`. -/
theorem handleMessage_receipt_absent_counterexample :
    demoEnv.MinerConfig 1000 = .ok demoConfig ∧
    msgNoReceiptEarly.State = MessageState.OnChainMsg ∧
    msgNoReceiptEarly.Receipt = none ∧
    handleMessage demoEnv 1000 msgNoReceiptEarly = some (OnChainState.Packed, none) ∧
    handleMessage demoEnv 1000 msgNoReceiptEarly ≠
      some (OnChainState.Failed, some errMsgReceiptNotFound) := by
  refine ⟨rfl, rfl, rfl, ?_, ?_⟩
  · decide
  · decide

/-- C6, as the code has it: for an `OnChainMsg` message whose receipt has an
exit code other than `Ok`, `handleMessage` first compares confidences; below
the miner's threshold the result is `Packed`, and only from the threshold on
it is `ShouldAbort`. The description is the receipt's return text. -/
theorem handleMessage_exit_not_ok (env : Env) (mid : ActorID) (msg : Message)
    (mcfg : MinerConfig) (r : Receipt) (hcfg : env.MinerConfig mid = .ok mcfg)
    (hstate : msg.State = MessageState.OnChainMsg) (hrec : msg.Receipt = some r)
    (hexit : r.ExitCode ≠ exitcodeOk) :
    handleMessage env mid msg =
      if msg.Confidence < mcfg.Confidence then some (OnChainState.Packed, maybeMsg msg)
      else some (OnChainState.ShouldAbort, maybeMsg msg) := by
  obtain ⟨mid0, state, conf, receipt, signed⟩ := msg
  simp only at hstate hrec
  subst hstate hrec
  by_cases hlt : conf < mcfg.Confidence <;>
    simp [handleMessage, MustMinerConfig, hcfg, hlt, hexit]

/-- C6, amended, at a concrete message with confidence 11 against 10. -/
theorem handleMessage_exit_not_ok_witness :
    demoEnv.MinerConfig 1000 = .ok demoConfig ∧
    msgBadExitLate.State = MessageState.OnChainMsg ∧
    msgBadExitLate.Receipt = some ⟨16, "boom"⟩ ∧
    (16 : Int) ≠ exitcodeOk ∧
    handleMessage demoEnv 1000 msgBadExitLate =
      (if msgBadExitLate.Confidence < demoConfig.Confidence
        then some (OnChainState.Packed, maybeMsg msgBadExitLate)
        else some (OnChainState.ShouldAbort, maybeMsg msgBadExitLate)) :=
  ⟨rfl, rfl, rfl, by decide,
    handleMessage_exit_not_ok demoEnv 1000 msgBadExitLate demoConfig ⟨16, "boom"⟩ rfl rfl rfl
      (by decide)⟩

/-- C6 as stated fails: an `OnChainMsg` message whose receipt has exit code 16
and whose confidence is 3 against a threshold of 10 is answered `Packed`,
not `ShouldAbort`. -/
theorem handleMessage_exit_not_ok_counterexample :
    demoEnv.MinerConfig 1000 = .ok demoConfig ∧
    msgBadExitEarly.State = MessageState.OnChainMsg ∧
    msgBadExitEarly.Receipt = some ⟨16, "boom"⟩ ∧
    (16 : Int) ≠ exitcodeOk ∧
    handleMessage demoEnv 1000 msgBadExitEarly = some (OnChainState.Packed, some "boom") ∧
    (∀ d, handleMessage demoEnv 1000 msgBadExitEarly ≠ some (OnChainState.ShouldAbort, d)) := by
  refine ⟨rfl, rfl, rfl, by decide, ?_, ?_⟩
  · decide
  · intro d h
    have h2 : handleMessage demoEnv 1000 msgBadExitEarly = some (OnChainState.Packed, some "boom") := by
      decide
    rw [h2] at h
    simp at h

/-! ### `SubmitPreCommit` -/

/-- C2, as the code has it: with the sender resolved, the sector loaded with
stored `Pre = info` and the miner id converted, a resubmission without hard
reset is compared on `CommD`, `CommR`, `Ticket.Epoch` and the ticket bytes
only. If `info2` differs from `info` in one of these four the answer is
`MismatchedSubmission`; if it agrees on all four the answer is `Accepted`,
whatever its other fields. The world is left as it was in both cases. -/
theorem SubmitPreCommit_mismatch (env : Env) (st : State) (id : SectorID)
    (info info2 : PreCommitInfo) (sector : SectorState) (addr maddr : Address)
    (hsender : preSender env id.Miner = .ok addr)
    (hload : smgrLoad env st id = .ok sector)
    (hpre : sector.Pre = some info)
    (haddr : env.NewIDAddress id.Miner = .ok maddr) :
    ((info2.CommD ≠ info.CommD ∨ info2.CommR ≠ info.CommR ∨
        info2.Ticket.Epoch ≠ info.Ticket.Epoch ∨ info2.Ticket.Ticket ≠ info.Ticket.Ticket) →
      SubmitPreCommit env st id info2 false = (.ok ⟨.MismatchedSubmission, none⟩, st)) ∧
    ((info2.CommD = info.CommD ∧ info2.CommR = info.CommR ∧
        info2.Ticket.Epoch = info.Ticket.Epoch ∧ info2.Ticket.Ticket = info.Ticket.Ticket) →
      SubmitPreCommit env st id info2 false = (.ok ⟨.Accepted, none⟩, st)) := by
  constructor
  · intro hdiff
    have hch : preInfoChanged info info2 = true := by
      simp only [preInfoChanged, Bool.or_eq_true, bne_iff_ne, ne_eq, Bool.not_eq_true',
        beq_eq_false_iff_ne]
      rcases hdiff with h | h | h | h
      · exact Or.inl (Or.inl (fun e => h e.symm))
      · exact Or.inl (Or.inr (fun e => h e.symm))
      · exact Or.inr (Or.inl (fun e => h e.symm))
      · exact Or.inr (Or.inr (fun e => h e.symm))
    simp [SubmitPreCommit, hsender, hload, haddr, hpre, hch]
  · rintro ⟨h1, h2, h3, h4⟩
    have hch : preInfoChanged info info2 = false := by
      simp [preInfoChanged, h1, h2, h3, h4]
    simp [SubmitPreCommit, hsender, hload, haddr, hpre, hch]

/-- C2, amended, at the stored sector of the demo world: a resubmission with
another `CommR` is a mismatch. -/
theorem SubmitPreCommit_mismatch_witness :
    preSender demoEnv 1000 = .ok ⟨"f01"⟩ ∧
    smgrLoad demoEnv stStored ⟨1000, 42⟩ = .ok sectorStored ∧
    sectorStored.Pre = some demoInfo ∧
    demoEnv.NewIDAddress 1000 = .ok ⟨"f01000"⟩ ∧
    demoInfoOtherCommR.CommR ≠ demoInfo.CommR ∧
    SubmitPreCommit demoEnv stStored ⟨1000, 42⟩ demoInfoOtherCommR false =
      (.ok ⟨.MismatchedSubmission, none⟩, stStored) :=
  ⟨by decide, by decide, rfl, by decide, by decide,
    (SubmitPreCommit_mismatch demoEnv stStored ⟨1000, 42⟩ demoInfo demoInfoOtherCommR
      sectorStored ⟨"f01"⟩ ⟨"f01000"⟩ (by decide) (by decide) rfl (by decide)).1
      (Or.inr (Or.inl (by decide)))⟩

/-- C2 as stated fails: a record that differs from the stored one in `Deals`
only is not equal to it, yet its resubmission is answered `Accepted`. -/
theorem SubmitPreCommit_mismatch_counterexample :
    preSender demoEnv 1000 = .ok ⟨"f01"⟩ ∧
    smgrLoad demoEnv stStored ⟨1000, 42⟩ = .ok sectorStored ∧
    sectorStored.Pre = some demoInfo ∧
    demoEnv.NewIDAddress 1000 = .ok ⟨"f01000"⟩ ∧
    demoInfoOtherDeals ≠ demoInfo ∧
    SubmitPreCommit demoEnv stStored ⟨1000, 42⟩ demoInfoOtherDeals false =
      (.ok ⟨.Accepted, none⟩, stStored) ∧
    SubmitPreCommit demoEnv stStored ⟨1000, 42⟩ demoInfoOtherDeals false ≠
      (.ok ⟨.MismatchedSubmission, none⟩, stStored) := by
  refine ⟨by decide, by decide, rfl, by decide, by decide, by decide, by decide⟩

/-- C10, as the code has it: when the miner's configuration cannot be
resolved, or its pre-commit sender is not a valid address, `SubmitPreCommit`
returns a call error and no verdict, and that error is the very error of
`preSender`: the wrapped lookup error "get miner config for <mid>: <cause>"
in the first case, "sender address not valid" in the second. The store is
not updated and nothing is enqueued: the world is returned as it was. -/
theorem SubmitPreCommit_sender_unresolved (env : Env) (st : State) (id : SectorID)
    (info : PreCommitInfo) (hardReset : Bool)
    (hbad : (∃ e, env.MinerConfig id.Miner = .error e) ∨
      (∃ mcfg, env.MinerConfig id.Miner = .ok mcfg ∧ mcfg.PreSender.Valid = false)) :
    ∃ e, preSender env id.Miner = .error e ∧
      SubmitPreCommit env st id info hardReset = (.error e, st) ∧
      ((∃ cause, env.MinerConfig id.Miner = .error cause ∧
          e = "get miner config for " ++ toString id.Miner ++ ": " ++ cause) ∨
        (∃ mcfg, env.MinerConfig id.Miner = .ok mcfg ∧ mcfg.PreSender.Valid = false ∧
          e = "sender address not valid")) := by
  rcases hbad with ⟨cause, he⟩ | ⟨mcfg, hm, hv⟩
  · refine ⟨"get miner config for " ++ toString id.Miner ++ ": " ++ cause, ?_, ?_, ?_⟩
    · simp [preSender, he]
    · simp [SubmitPreCommit, preSender, he]
    · exact Or.inl ⟨cause, he, rfl⟩
  · refine ⟨"sender address not valid", ?_, ?_, ?_⟩
    · simp [preSender, hm, hv]
    · simp [SubmitPreCommit, preSender, hm, hv]
    · exact Or.inr ⟨mcfg, hm, hv, rfl⟩

/-- C10, amended, in the world without miner configuration: the call returns
the error of `preSender` and leaves the world as it was. -/
theorem SubmitPreCommit_sender_unresolved_witness :
    (∃ e, noConfigEnv.MinerConfig 1000 = .error e) ∧
    ∃ e, preSender noConfigEnv 1000 = .error e ∧
      SubmitPreCommit noConfigEnv stFresh ⟨1000, 42⟩ demoInfo false = (.error e, stFresh) ∧
      ((∃ cause, noConfigEnv.MinerConfig 1000 = .error cause ∧
          e = "get miner config for " ++ toString 1000 ++ ": " ++ cause) ∨
        (∃ mcfg, noConfigEnv.MinerConfig 1000 = .ok mcfg ∧ mcfg.PreSender.Valid = false ∧
          e = "sender address not valid")) :=
  ⟨⟨"not found", rfl⟩,
    SubmitPreCommit_sender_unresolved noConfigEnv stFresh ⟨1000, 42⟩ demoInfo false
      (Or.inl ⟨"not found", rfl⟩)⟩

/-- C10 as stated fails: without a miner configuration the call returns an
error, not a response with the verdict `Rejected`. -/
theorem SubmitPreCommit_sender_unresolved_counterexample :
    noConfigEnv.MinerConfig 1000 = .error "not found" ∧
    SubmitPreCommit noConfigEnv stFresh ⟨1000, 42⟩ demoInfo false =
      (.error "get miner config for 1000: not found", stFresh) ∧
    (∀ d st1, SubmitPreCommit noConfigEnv stFresh ⟨1000, 42⟩ demoInfo false ≠
      (.ok ⟨.Rejected, d⟩, st1)) := by
  have h : SubmitPreCommit noConfigEnv stFresh ⟨1000, 42⟩ demoInfo false =
      (.error "get miner config for 1000: not found", stFresh) := by decide
  refine ⟨rfl, h, ?_⟩
  intro d st1 h2
  rw [h] at h2
  simp at h2

/-- What a successful `smgrLoad` says about the oracle and the store. -/
theorem smgrLoad_ok (env : Env) (st : State) (id : SectorID) (s : SectorState)
    (h : smgrLoad env st id = .ok s) :
    env.loadErr id = none ∧ st.store.find? (fun s => decide (s.ID = id)) = some s := by
  unfold smgrLoad at h
  cases he : env.loadErr id with
  | some e => simp [he] at h
  | none =>
    cases hf : st.store.find? (fun s => decide (s.ID = id)) with
    | none => simp [he, hf] at h
    | some s2 =>
      simp [he, hf] at h
      exact ⟨rfl, by rw [h]⟩

/-- A loaded sector carries the id it was asked for. -/
theorem smgrLoad_id (env : Env) (st : State) (id : SectorID) (s : SectorState)
    (h : smgrLoad env st id = .ok s) : s.ID = id := by
  have hf := (smgrLoad_ok env st id s h).2
  have := List.find?_some hf
  simpa using this

/-- After the store update of `smgrUpdate`, the first record under the id is
the old one with the two fields replaced. -/
theorem find_map_update (l : List SectorState) (id : SectorID) (pre : Option PreCommitInfo)
    (mi : MessageInfo) (s : SectorState)
    (h : l.find? (fun s => decide (s.ID = id)) = some s) :
    (l.map (fun s => if s.ID = id then { s with Pre := pre, MessageInfo := mi } else s)).find?
      (fun s => decide (s.ID = id)) = some { s with Pre := pre, MessageInfo := mi } := by
  induction l with
  | nil => simp at h
  | cons a t ih =>
    by_cases ha : a.ID = id
    · simp only [List.find?, ha, decide_True, Option.some.injEq] at h
      subst h
      simp [List.find?, ha]
    · simp only [List.find?, ha, decide_False] at h
      simp [List.find?, ha, ih h]

/-- A record is never changed with respect to itself. -/
theorem preInfoChanged_self (info : PreCommitInfo) : preInfoChanged info info = false := by
  simp [preInfoChanged]

/-- C3: if `SubmitPreCommit(id, info, false)` returns `Accepted`, leaving the
world `st1`, then the same call made again in `st1` returns `Accepted` and
leaves `st1` as it is: the store is the same, the log of `smgr.Update` calls
has not grown, and nothing has been added to the pre-pending channel. -/
theorem SubmitPreCommit_idempotent (env : Env) (st st1 : State) (id : SectorID)
    (info : PreCommitInfo) (d : Option String)
    (h : SubmitPreCommit env st id info false = (.ok ⟨.Accepted, d⟩, st1)) :
    SubmitPreCommit env st1 id info false = (.ok ⟨.Accepted, none⟩, st1) := by
  unfold SubmitPreCommit at h
  cases hs : preSender env id.Miner with
  | error e => simp [hs] at h
  | ok a =>
    cases hl : smgrLoad env st id with
    | error e => simp [hs, hl] at h
    | ok sector =>
      cases ha : env.NewIDAddress id.Miner with
      | error e => simp [hs, hl, ha] at h
      | ok maddr =>
        have hid : sector.ID = id := smgrLoad_id env st id sector hl
        obtain ⟨hle, hfind⟩ := smgrLoad_ok env st id sector hl
        obtain ⟨sid, spre, sproof, smi⟩ := sector
        simp only at hid
        subst hid
        cases spre with
        | some pre =>
          by_cases hc : preInfoChanged pre info = true
          · simp [hs, hl, ha, hc] at h
          · simp [hs, hl, ha, hc] at h
            obtain ⟨_, rfl⟩ := h
            simp [SubmitPreCommit, hs, hl, ha, hc]
        | none =>
          simp only [hs, hl, ha, submitChecked] at h
          cases hck : env.checkPrecommit maddr ⟨sid, some info, sproof, smi⟩ with
          | some err =>
            cases err with
            | ErrAPI m => simp [hck] at h
            | other m => simp [hck] at h
            | ErrPrecommitOnChain m =>
              simp [hck] at h
              obtain ⟨_, rfl⟩ := h
              simp [SubmitPreCommit, hs, hl, ha, submitChecked, hck]
          | none =>
            simp only [hck, smgrUpdate] at h
            cases hu : env.updateErr sid with
            | some e => simp [hu] at h
            | none =>
              by_cases hany : (st.store.any fun s => decide (s.ID = sid)) = true
              · simp only [hu, hany, if_true] at h
                simp only [Prod.mk.injEq, Except.ok.injEq, SubmitPreCommitResp.mk.injEq,
                  true_and] at h
                obtain ⟨_, rfl⟩ := h
                have hfind2 := find_map_update st.store sid (some info)
                  { smi with NeedSend := true, PreCommitCid := none } _ hfind
                have hl2 : ∀ upd pend, smgrLoad env
                    { store := st.store.map (fun s => if s.ID = sid then
                        { s with Pre := some info, MessageInfo :=
                          { smi with NeedSend := true, PreCommitCid := none } }
                        else s),
                      prePendingChan := pend, proPendingChan := st.proPendingChan,
                      updateLog := upd } sid =
                    .ok ⟨sid, some info, sproof,
                      { smi with NeedSend := true, PreCommitCid := none }⟩ := by
                  intro upd pend
                  simp [smgrLoad, hle, hfind2]
                simp [SubmitPreCommit, hs, hl2, ha, preInfoChanged_self]
              · simp [hu, hany] at h

/-- C3, in the demo world: the first submission of the fresh sector is
accepted and leads to `stSubmitted`; the second one is accepted there and
changes nothing. -/
theorem SubmitPreCommit_idempotent_witness :
    SubmitPreCommit demoEnv stFresh ⟨1000, 42⟩ demoInfo false =
      (.ok ⟨.Accepted, none⟩, stSubmitted) ∧
    SubmitPreCommit demoEnv stSubmitted ⟨1000, 42⟩ demoInfo false =
      (.ok ⟨.Accepted, none⟩, stSubmitted) :=
  ⟨by decide,
    SubmitPreCommit_idempotent demoEnv stFresh stSubmitted ⟨1000, 42⟩ demoInfo none (by decide)⟩

/-- C7, as the code has it: for a sector with no dispatched pre-commit
(`PreCommitCid` nil) on which the checker is run (no stored `Pre`, or a hard
reset) and answers `ErrPrecommitOnChain`, `SubmitPreCommit` returns `Accepted`
and leaves the world untouched (no store update, nothing enqueued). A
`PreCommitState` poll made right after it does not reach the chain: it
returns `Pending` when the sector's `NeedSend` flag is set and otherwise
`Failed` with "attempt to publish message but failed". -/
theorem SubmitPreCommit_onchain_poll (env : Env) (st : State) (id : SectorID)
    (info : PreCommitInfo) (hardReset : Bool) (sector : SectorState) (addr maddr : Address)
    (m : String)
    (hsender : preSender env id.Miner = .ok addr)
    (hload : smgrLoad env st id = .ok sector)
    (haddr : env.NewIDAddress id.Miner = .ok maddr)
    (hcid : sector.MessageInfo.PreCommitCid = none)
    (hrun : sector.Pre = none ∨ hardReset = true)
    (hcheck : env.checkPrecommit maddr { sector with Pre := some info } =
      some (.ErrPrecommitOnChain m)) :
    SubmitPreCommit env st id info hardReset = (.ok ⟨.Accepted, none⟩, st) ∧
    PreCommitState env (SubmitPreCommit env st id info hardReset).2 id =
      some (.ok (if sector.MessageInfo.NeedSend then ⟨.Pending, none⟩
        else ⟨.Failed, some errMsgPublishAttemptFailed⟩)) := by
  have h1 : SubmitPreCommit env st id info hardReset = (.ok ⟨.Accepted, none⟩, st) := by
    rcases hrun with hnone | hhard
    · simp [SubmitPreCommit, hsender, hload, haddr, hnone, submitChecked, hcheck]
    · subst hhard
      cases hp : sector.Pre <;>
        simp [SubmitPreCommit, hsender, hload, haddr, hp, submitChecked, hcheck]
  refine ⟨h1, ?_⟩
  rw [h1]
  by_cases hn : sector.MessageInfo.NeedSend = true <;>
    simp [PreCommitState, haddr, hload, hcid, hn]

/-- C7, amended, at the fresh sector of the demo world with the chain holding
its pre-commit record. -/
theorem SubmitPreCommit_onchain_poll_witness :
    preSender onChainEnv 1000 = .ok ⟨"f01"⟩ ∧
    smgrLoad onChainEnv stFresh ⟨1000, 42⟩ = .ok sectorFresh ∧
    onChainEnv.NewIDAddress 1000 = .ok ⟨"f01000"⟩ ∧
    sectorFresh.MessageInfo.PreCommitCid = none ∧
    sectorFresh.Pre = none ∧
    onChainEnv.checkPrecommit ⟨"f01000"⟩ { sectorFresh with Pre := some demoInfo } =
      some (.ErrPrecommitOnChain "precommit already on chain") ∧
    SubmitPreCommit onChainEnv stFresh ⟨1000, 42⟩ demoInfo false =
      (.ok ⟨.Accepted, none⟩, stFresh) ∧
    PreCommitState onChainEnv
        (SubmitPreCommit onChainEnv stFresh ⟨1000, 42⟩ demoInfo false).2 ⟨1000, 42⟩ =
      some (.ok (if sectorFresh.MessageInfo.NeedSend then ⟨.Pending, none⟩
        else ⟨.Failed, some errMsgPublishAttemptFailed⟩)) :=
  ⟨by decide, by decide, by decide, rfl, rfl, rfl,
    SubmitPreCommit_onchain_poll onChainEnv stFresh ⟨1000, 42⟩ demoInfo false sectorFresh
      ⟨"f01"⟩ ⟨"f01000"⟩ "precommit already on chain" (by decide) (by decide) (by decide)
      rfl (Or.inl rfl) rfl⟩

/-- C7 as stated fails: the checker finds the pre-commit on chain, the chain
holds the record, the submission is accepted without enqueuing, and the poll
made right after it returns `Failed`, not `Landed`. -/
theorem SubmitPreCommit_onchain_poll_counterexample :
    sectorFresh.MessageInfo.PreCommitCid = none ∧
    onChainEnv.checkPrecommit ⟨"f01000"⟩ { sectorFresh with Pre := some demoInfo } =
      some (.ErrPrecommitOnChain "precommit already on chain") ∧
    onChainEnv.StateSectorPreCommitInfo ⟨"f01000"⟩ 42 = (some demoInfo, none) ∧
    SubmitPreCommit onChainEnv stFresh ⟨1000, 42⟩ demoInfo false =
      (.ok ⟨.Accepted, none⟩, stFresh) ∧
    PreCommitState onChainEnv
        (SubmitPreCommit onChainEnv stFresh ⟨1000, 42⟩ demoInfo false).2 ⟨1000, 42⟩ =
      some (.ok ⟨.Failed, some errMsgPublishAttemptFailed⟩) ∧
    (∀ d, PreCommitState onChainEnv
        (SubmitPreCommit onChainEnv stFresh ⟨1000, 42⟩ demoInfo false).2 ⟨1000, 42⟩ ≠
      some (.ok ⟨.Landed, d⟩)) := by
  have hpoll : PreCommitState onChainEnv
        (SubmitPreCommit onChainEnv stFresh ⟨1000, 42⟩ demoInfo false).2 ⟨1000, 42⟩ =
      some (.ok ⟨.Failed, some errMsgPublishAttemptFailed⟩) := by decide
  refine ⟨rfl, rfl, rfl, by decide, hpoll, ?_⟩
  intro d h
  rw [hpoll] at h
  simp at h

/-! ### `PreCommitState` -/

/-- C4: (1) whenever `PreCommitState(id)` returns the state `Landed`, the
miner id converted to an address and `StateSectorPreCommitInfo` for that
address and sector number returned a record and no error; (2) when
`handleMessage` yields `Landed` and the chain reports `ErrSectorAllocated`,
the result is `ShouldAbort` with "sector already allocated"; (3) when
`handleMessage` yields `Landed` and the chain returns no record and no error,
the result is `ShouldAbort` with "pre-commit info not found on chain". -/
theorem PreCommitState_landed (env : Env) (st : State) (id : SectorID) :
    (∀ d, PreCommitState env st id = some (.ok ⟨.Landed, d⟩) →
      ∃ maddr pci, env.NewIDAddress id.Miner = .ok maddr ∧
        env.StateSectorPreCommitInfo maddr id.Number = (some pci, none)) ∧
    (∀ maddr sector c msg d,
      env.NewIDAddress id.Miner = .ok maddr →
      smgrLoad env st id = .ok sector →
      sector.MessageInfo.PreCommitCid = some c →
      env.GetMessageByUid c.str = .ok msg →
      handleMessage env id.Miner msg = some (OnChainState.Landed, d) →
      ((∀ pci, env.StateSectorPreCommitInfo maddr id.Number =
            (pci, some ChainErr.ErrSectorAllocated) →
          PreCommitState env st id = some (.ok ⟨.ShouldAbort, some errMsgSectorAllocated⟩)) ∧
        (env.StateSectorPreCommitInfo maddr id.Number = (none, none) →
          PreCommitState env st id =
            some (.ok ⟨.ShouldAbort, some errMsgPreCommitInfoNotFound⟩)))) := by
  constructor
  · intro d h
    unfold PreCommitState at h
    cases ha : env.NewIDAddress id.Miner with
    | error e => simp [ha] at h
    | ok maddr =>
      cases hl : smgrLoad env st id with
      | error e => simp [ha, hl] at h
      | ok sector =>
        cases hc : sector.MessageInfo.PreCommitCid with
        | none =>
          by_cases hn : sector.MessageInfo.NeedSend = true <;> simp [ha, hl, hc, hn] at h
        | some c =>
          cases hg : env.GetMessageByUid c.str with
          | error e => simp [ha, hl, hc, hg] at h
          | ok msg =>
            cases hh : handleMessage env id.Miner msg with
            | none => simp [ha, hl, hc, hg, hh] at h
            | some res =>
              obtain ⟨state, maybe⟩ := res
              simp only [ha, hl, hc, hg, hh, Option.some.injEq] at h
              unfold confirmOnChain at h
              by_cases hs : state = OnChainState.Landed
              · rcases hchain : env.StateSectorPreCommitInfo maddr id.Number with ⟨pci, err⟩
                refine ⟨maddr, ?_⟩
                cases err with
                | some e =>
                  cases e with
                  | ErrSectorAllocated => simp [hs, hchain] at h
                  | other m => simp [hs, hchain] at h
                | none =>
                  cases pci with
                  | none => simp [hs, hchain] at h
                  | some rec => exact ⟨rec, rfl, hchain⟩
              · simp only [hs, if_false, Except.ok.injEq, PollPreCommitStateResp.mk.injEq] at h
                exact h.1.elim
  · intro maddr sector c msg d ha hl hc hg hh
    constructor
    · intro pci hchain
      simp [PreCommitState, ha, hl, hc, hg, hh, confirmOnChain, hchain]
    · intro hchain
      simp [PreCommitState, ha, hl, hc, hg, hh, confirmOnChain, hchain]

/-- C4, in three demo worlds that share the dispatched sector and its landed
message: the chain holds the record, reports the number allocated, or has no
record. -/
theorem PreCommitState_landed_witness :
    (PreCommitState demoEnv stStored sectorId42 = some (.ok ⟨.Landed, none⟩) ∧
      ∃ maddr pci, demoEnv.NewIDAddress sectorId42.Miner = .ok maddr ∧
        demoEnv.StateSectorPreCommitInfo maddr sectorId42.Number = (some pci, none)) ∧
    (handleMessage allocatedEnv sectorId42.Miner ⟨"bafk42", .OnChainMsg, 11, some ⟨0, ""⟩, none⟩ =
        some (OnChainState.Landed, none) ∧
      PreCommitState allocatedEnv stStored sectorId42 =
        some (.ok ⟨.ShouldAbort, some errMsgSectorAllocated⟩)) ∧
    (handleMessage noRecordEnv sectorId42.Miner ⟨"bafk42", .OnChainMsg, 11, some ⟨0, ""⟩, none⟩ =
        some (OnChainState.Landed, none) ∧
      PreCommitState noRecordEnv stStored sectorId42 =
        some (.ok ⟨.ShouldAbort, some errMsgPreCommitInfoNotFound⟩)) :=
  ⟨⟨by decide, (PreCommitState_landed demoEnv stStored sectorId42).1 none (by decide)⟩,
    ⟨by decide,
      ((PreCommitState_landed allocatedEnv stStored sectorId42).2 ⟨"f01000"⟩ sectorStored
        ⟨"bafk42"⟩ ⟨"bafk42", .OnChainMsg, 11, some ⟨0, ""⟩, none⟩ none
        (by decide) (by decide) rfl rfl (by decide)).1 none rfl⟩,
    ⟨by decide,
      ((PreCommitState_landed noRecordEnv stStored sectorId42).2 ⟨"f01000"⟩ sectorStored
        ⟨"bafk42"⟩ ⟨"bafk42", .OnChainMsg, 11, some ⟨0, ""⟩, none⟩ none
        (by decide) (by decide) rfl rfl (by decide)).2 rfl⟩⟩

/-! ### `pushMessage` -/

/-- The probing loop started at counter `i`, with `k` further salts to try
before the first unseen one `s`, returns the id minted with `s` as soon as
the fuel exceeds `k`. -/
theorem probeLoop_finds (env : Env) (mb : List Nat) (mint : Nat → Cid) (seen : String → Bool)
    (s : Nat) (hs : s < 256)
    (hmint : ∀ j, j ≤ s → NewMIdFromBytes env ([j] ++ mb) = .ok (mint j))
    (hhas : ∀ j, j ≤ s → env.HasMessageByUid (mint j).str = .ok (seen (mint j).str))
    (hunseen : seen (mint s).str = false)
    (hmin : ∀ j, j < s → seen (mint j).str = true) :
    ∀ (k i fuel : Nat), i + k = s → k < fuel →
      probeLoop env mb fuel i = some (.ok (mint s)) := by
  intro k
  induction k with
  | zero =>
    intro i fuel hik hfuel
    obtain ⟨f, rfl⟩ : ∃ f, fuel = f + 1 := ⟨fuel - 1, by omega⟩
    have hi : i = s := by omega
    subst hi
    have hmod : i % 256 = i := Nat.mod_eq_of_lt hs
    have hm : NewMIdFromBytes env (i :: mb) = .ok (mint i) := hmint i le_rfl
    simp [probeLoop, hmod, hm, hhas i le_rfl, hunseen]
  | succ k ih =>
    intro i fuel hik hfuel
    obtain ⟨f, rfl⟩ : ∃ f, fuel = f + 1 := ⟨fuel - 1, by omega⟩
    have hlt : i < s := by omega
    have hmod : i % 256 = i := Nat.mod_eq_of_lt (by omega)
    have hnext := ih (i + 1) f (by omega) (by omega)
    have hm : NewMIdFromBytes env (i :: mb) = .ok (mint i) := hmint i (by omega)
    simp [probeLoop, hmod, hm, hhas i (by omega), hmin i hlt, hnext]

/-- When the messager has seen the ids of all 256 salts, the probing loop
never returns: it runs out of any fuel. The counter wraps as a byte, so no
further id is ever tried. -/
theorem probeLoop_exhausted (env : Env) (mb : List Nat) (mint : Nat → Cid)
    (hmint : ∀ j, j < 256 → NewMIdFromBytes env (j :: mb) = .ok (mint j))
    (hhas : ∀ j, j < 256 → env.HasMessageByUid (mint j).str = .ok true) :
    ∀ (fuel i : Nat), probeLoop env mb fuel i = none := by
  intro fuel
  induction fuel with
  | zero => intro i; rfl
  | succ f ih =>
    intro i
    have hlt : i % 256 < 256 := Nat.mod_lt _ (by decide)
    simp [probeLoop, hmint (i % 256) hlt, hhas (i % 256) hlt, ih]

/-- C8: let `mb` be the canonical bytes of the message, `mint j` the id that
`NewMIdFromBytes` gives for salt `j` prepended to `mb`, and `seen` the
messager's answer to `HasMessageByUid`, none of these calls failing for the
salts up to `s`. If salt `s` is unseen, every smaller salt is seen, and the
messager echoes the pushed id, then with any fuel above `s` `pushMessage`
pushes exactly the id minted with `s` and returns it. -/
theorem pushMessage_smallest_salt (env : Env) (fuel : Nat) (sender : Address) (mid : ActorID)
    (value method : Nat) (params : List Nat) (toAddr : Address) (mb : List Nat)
    (mint : Nat → Cid) (seen : String → Bool) (s : Nat) (hs : s < 256)
    (hto : env.NewIDAddress mid = .ok toAddr)
    (hblock : env.ToStorageBlock ⟨toAddr, sender, value, method, params⟩ = .ok mb)
    (hmint : ∀ j, j ≤ s → NewMIdFromBytes env ([j] ++ mb) = .ok (mint j))
    (hhas : ∀ j, j ≤ s → env.HasMessageByUid (mint j).str = .ok (seen (mint j).str))
    (hunseen : seen (mint s).str = false)
    (hmin : ∀ j, j < s → seen (mint j).str = true)
    (hpush : env.PushMessageWithId (mint s).str ⟨toAddr, sender, value, method, params⟩ =
      .ok (mint s).str)
    (hfuel : s < fuel) :
    pushMessage env fuel sender mid value method params =
      some (.ok (mint s), [(mint s).str]) := by
  have hloop := probeLoop_finds env mb mint seen s hs hmint hhas hunseen hmin s 0 fuel
    (by omega) hfuel
  simp [pushMessage, hto, hblock, hloop, hpush]

/-- C8, in the world whose messager has seen the salts 0 and 1: salt 2 is
used, with fuel 3. -/
theorem pushMessage_smallest_salt_witness :
    (2 < 256) ∧
    seenEnv.NewIDAddress 1000 = .ok ⟨"f01000"⟩ ∧
    seenEnv.ToStorageBlock ⟨⟨"f01000"⟩, ⟨"f01"⟩, 0, 6, [9]⟩ = .ok [9] ∧
    (∀ j, j ≤ 2 → NewMIdFromBytes seenEnv ([j] ++ [9]) = .ok (demoMId j)) ∧
    (∀ j, j ≤ 2 → seenEnv.HasMessageByUid (demoMId j).str = .ok (demoSeen (demoMId j).str)) ∧
    demoSeen (demoMId 2).str = false ∧
    (∀ j, j < 2 → demoSeen (demoMId j).str = true) ∧
    seenEnv.PushMessageWithId (demoMId 2).str ⟨⟨"f01000"⟩, ⟨"f01"⟩, 0, 6, [9]⟩ =
      .ok (demoMId 2).str ∧
    pushMessage seenEnv 3 ⟨"f01"⟩ 1000 0 6 [9] = some (.ok ⟨"[2, 9]"⟩, ["[2, 9]"]) :=
  ⟨by decide, by decide, rfl, fun _ _ => rfl, fun _ _ => rfl, by decide, by decide, rfl,
    pushMessage_smallest_salt seenEnv 3 ⟨"f01"⟩ 1000 0 6 [9] ⟨"f01000"⟩ [9] demoMId demoSeen 2
      (by decide) (by decide) rfl (fun _ _ => rfl) (fun _ _ => rfl) (by decide) (by decide)
      rfl (by decide)⟩

/-! ### `restartSector` -/

/-- The loop of `restartSector` appends to each channel the sectors it
selects, in the order of the list, and touches nothing else. -/
theorem foldl_restartStep (sectors : List SectorState) (st : State) :
    sectors.foldl restartStep st =
      { st with
        prePendingChan := st.prePendingChan ++ sectors.filter (fun s =>
          s.MessageInfo.NeedSend && s.MessageInfo.PreCommitCid.isNone),
        proPendingChan := st.proPendingChan ++ sectors.filter (fun s =>
          s.MessageInfo.NeedSend && s.MessageInfo.PreCommitCid.isSome) } := by
  induction sectors generalizing st with
  | nil => simp
  | cons a t ih =>
    rw [List.foldl_cons, ih]
    cases hn : a.MessageInfo.NeedSend with
    | false => simp [restartStep, hn]
    | true =>
      cases hc : a.MessageInfo.PreCommitCid with
      | none => simp [restartStep, hn, hc]
      | some c => simp [restartStep, hn, hc]

/-- C9: for the list `sectors` that the store returns, `restartSector`
appends to the pre-commit pending channel the sectors with `NeedSend` and a
nil `PreCommitCid`, and to the prove-commit pending channel the sectors with
`NeedSend` and a `PreCommitCid`, each in store order; the two additions taken
together are exactly the sectors with `NeedSend`, each once; the store and
the update log are untouched. -/
theorem restartSector_enqueues (env : Env) (st : State) (sectors : List SectorState)
    (hall : env.All = .ok sectors) :
    (restartSector env st).prePendingChan = st.prePendingChan ++ sectors.filter (fun s =>
        s.MessageInfo.NeedSend && s.MessageInfo.PreCommitCid.isNone) ∧
    (restartSector env st).proPendingChan = st.proPendingChan ++ sectors.filter (fun s =>
        s.MessageInfo.NeedSend && s.MessageInfo.PreCommitCid.isSome) ∧
    List.Perm
      (sectors.filter (fun s => s.MessageInfo.NeedSend && s.MessageInfo.PreCommitCid.isNone) ++
        sectors.filter (fun s => s.MessageInfo.NeedSend && s.MessageInfo.PreCommitCid.isSome))
      (sectors.filter (fun s => s.MessageInfo.NeedSend)) ∧
    (restartSector env st).store = st.store ∧
    (restartSector env st).updateLog = st.updateLog := by
  have hfold : restartSector env st = sectors.foldl restartStep st := by
    simp [restartSector, hall]
  rw [hfold, foldl_restartStep]
  refine ⟨rfl, rfl, ?_, rfl, rfl⟩
  have hperm := List.filter_append_perm (fun s : SectorState => s.MessageInfo.PreCommitCid.isNone)
    (sectors.filter (fun s => s.MessageInfo.NeedSend))
  simp only [List.filter_filter] at hperm
  have e1 : (fun s : SectorState => s.MessageInfo.NeedSend && s.MessageInfo.PreCommitCid.isNone)
      = (fun s : SectorState => s.MessageInfo.PreCommitCid.isNone && s.MessageInfo.NeedSend) := by
    funext s; exact Bool.and_comm _ _
  have e2 : (fun s : SectorState => s.MessageInfo.NeedSend && s.MessageInfo.PreCommitCid.isSome)
      = (fun s : SectorState =>
          (!s.MessageInfo.PreCommitCid.isNone) && s.MessageInfo.NeedSend) := by
    funext s
    cases s.MessageInfo.PreCommitCid <;> cases s.MessageInfo.NeedSend <;> rfl
  rw [e1, e2]
  exact hperm

/-- C9, for a store listing three sectors: the first goes onto the pre-commit
channel, the third onto the prove-commit channel, the second nowhere. -/
theorem restartSector_enqueues_witness :
    restartEnv.All = .ok restartSectors ∧
    (restartSector restartEnv stFresh).prePendingChan =
      [⟨⟨1000, 1⟩, some demoInfo, none, ⟨none, none, true⟩⟩] ∧
    (restartSector restartEnv stFresh).proPendingChan =
      [⟨⟨1000, 3⟩, some demoInfo, some ⟨[5], 200, [6]⟩, ⟨some ⟨"bafk3"⟩, none, true⟩⟩] :=
  ⟨rfl,
    (restartSector_enqueues restartEnv stFresh restartSectors rfl).1.trans (by decide),
    (restartSector_enqueues restartEnv stFresh restartSectors rfl).2.1.trans (by decide)⟩

end Commitmgr
